import Mathlib

/-!
# Verification of the photo-grid layout engine

Shallow embedding of the layout candidate generation, deduplication and
scoring engine of the repository.  The repository contains two revisions of
the pipeline:

* the descriptor-based revision (files `layoutDescriptors.js` and
  `layoutGenerator.js`, i.e. `src/unnamed/part_000` and `src/unnamed/part_002`),
  which is the one imported by the application; it is embedded in
  namespaces `LD` (descriptor library) and `LG` (generator);
* the legacy self-contained revision (`src/unnamed/part_001`); its
  deduplication and scoring section (lines 3863-3973) is embedded in
  namespace `P1`.

JavaScript numbers are modelled by `ℚ` (exact arithmetic).  Where the
JavaScript produces the error value `NaN` on reachable inputs
(the legacy `calculateSizeBalance` divides `0 / 0` on single-cell layouts)
the embedding returns `Option ℚ` with `none` standing for "not a finite
number".  The live scorer also divides by zero on degenerate inputs — a
zero-area page or a photo with a zero dimension — where the source computes
`NaN`/`±Infinity`; its metric functions here use total `ℚ` division (zero
denominators give `0`), so every theorem about them carries positive
page- and photo-dimension hypotheses, confining it to the domain on which
the rational computation coincides with the source branch for branch;
`LG.calculateUtilizationN` makes the zero-page error value explicit for
exhibiting the degenerate behaviour.  `Math.sqrt` is modelled by `Rat.sqrt`; it agrees with the source
on perfect squares (every concrete value appearing in a theorem below) and
only its nonnegativity is used elsewhere.  `Math.round x` is modelled as
`⌊x + 1/2⌋` and `toFixed(6)` by rounding to integer micro-units, both exactly
the ECMAScript rounding for the values concerned.  JavaScript's
`Array.prototype.sort` (stable since ES2019) is modelled by Mathlib's stable
`List.insertionSort`; all comparators appearing in the source are consistent
total preorders, for which every stable sort computes the same list.
-/

/-- A photo: the engine only reads `width` and `height`. -/
structure Photo where
  width : ℚ
  height : ℚ
deriving DecidableEq, Repr

/-- Page dimensions. -/
structure PageSize where
  width : ℚ
  height : ℚ
deriving DecidableEq, Repr

/-- An instantiated cell: an absolute rectangle, optionally bound to a photo.
`aspectRatio` models the extra field that `createOptimizedLayout` stores on
its cell copies (absent, i.e. `none`, elsewhere). -/
structure Cell where
  x : ℚ
  y : ℚ
  width : ℚ
  height : ℚ
  photo : Option Photo := none
  aspectRatio : Option ℚ := none
deriving DecidableEq, Repr

/-- A layout candidate before scoring.  `ltype`/`lname` model the `type` and
`name` fields; `duplicateOf` is the annotation attached by the
descriptor-based `removeDuplicateLayouts`. -/
structure Layout where
  ltype : String
  lname : String
  photos : List Photo
  cells : List Cell
  duplicateOf : Option ℕ := none
deriving DecidableEq, Repr

/-- A cell of a layout descriptor, in normalized (0..1) page coordinates. -/
structure DescriptorCell where
  x : ℚ
  y : ℚ
  width : ℚ
  height : ℚ
  photoIndex : ℕ
deriving DecidableEq, Repr

/-- A page-size-independent layout descriptor. -/
structure Descriptor where
  dtype : String
  dname : String
  cells : List DescriptorCell
deriving DecidableEq, Repr

/-- `width / height` of a photo. -/
def Photo.ratio (p : Photo) : ℚ := p.width / p.height

/-- The comparator `(a, b) => bRatio - aRatio` used to sort photos landscape
first: `a` may stay before `b` iff the comparator is `≤ 0`. -/
def photoDescRatio (a b : Photo) : Prop := b.ratio ≤ a.ratio

instance : DecidableRel photoDescRatio := fun a b => by
  unfold photoDescRatio; infer_instance

/-- The comparator `(a, b) => (a.y !== b.y ? a.y - b.y : a.x - b.x)` used to
sort cells by position: `a` may stay before `b` iff the comparator is `≤ 0`. -/
def cellPosLE (a b : Cell) : Prop := a.y < b.y ∨ (a.y = b.y ∧ a.x ≤ b.x)

instance : DecidableRel cellPosLE := fun a b => by
  unfold cellPosLE; infer_instance

/-- The comparator `(a, b) => b.aspectRatio - a.aspectRatio` used to process
cells widest first. -/
def cellAspectGE (a b : Cell) : Prop := b.aspectRatio.getD 0 ≤ a.aspectRatio.getD 0

instance : DecidableRel cellAspectGE := fun a b => by
  unfold cellAspectGE; infer_instance

/-- `Math.round q` (round half towards positive infinity). -/
def jsRound (q : ℚ) : ℤ := ⌊q + 1 / 2⌋

namespace LD

/-! ## `layoutDescriptors.js` (src/unnamed/part_000) -/

/-- `createGridDescriptor(rows, cols)`: a uniform `rows × cols` grid. -/
def createGridDescriptor (rows cols : ℕ) : Descriptor :=
  let cellWidth : ℚ := 1 / cols
  let cellHeight : ℚ := 1 / rows
  { dtype := "grid"
    dname := "grid-" ++ toString rows ++ "x" ++ toString cols
    cells :=
      ((List.range rows).map fun (row : ℕ) =>
        (List.range cols).map fun (col : ℕ) =>
          { x := (col : ℚ) * cellWidth
            y := (row : ℚ) * cellHeight
            width := cellWidth
            height := cellHeight
            photoIndex := row * cols + col : DescriptorCell }).flatten }

/-- `createHorizontalSplitDescriptor(topCount, bottomCount)`. -/
def createHorizontalSplitDescriptor (topCount bottomCount : ℕ) : Descriptor :=
  let topHeight : ℚ := 1 / 2
  let bottomHeight : ℚ := 1 / 2
  { dtype := "split"
    dname := "hsplit-" ++ toString topCount ++ "-" ++ toString bottomCount
    cells :=
      ((List.range topCount).map fun (i : ℕ) =>
        { x := (i : ℚ) * (1 / (topCount : ℚ))
          y := 0
          width := 1 / (topCount : ℚ)
          height := topHeight
          photoIndex := i : DescriptorCell }) ++
      ((List.range bottomCount).map fun (i : ℕ) =>
        { x := (i : ℚ) * (1 / (bottomCount : ℚ))
          y := topHeight
          width := 1 / (bottomCount : ℚ)
          height := bottomHeight
          photoIndex := topCount + i : DescriptorCell }) }

/-- `createVerticalSplitDescriptor(leftCount, rightCount, splitRatio = 0.5)`. -/
def createVerticalSplitDescriptor (leftCount rightCount : ℕ)
    (splitRatio : ℚ := 1 / 2) : Descriptor :=
  let leftWidth : ℚ := splitRatio
  let rightWidth : ℚ := 1 - splitRatio
  { dtype := "split"
    dname := "vsplit-" ++ toString leftCount ++ "-" ++ toString rightCount
    cells :=
      ((List.range leftCount).map fun (i : ℕ) =>
        { x := 0
          y := (i : ℚ) * (1 / (leftCount : ℚ))
          width := leftWidth
          height := 1 / (leftCount : ℚ)
          photoIndex := i : DescriptorCell }) ++
      ((List.range rightCount).map fun (i : ℕ) =>
        { x := leftWidth
          y := (i : ℚ) * (1 / (rightCount : ℚ))
          width := rightWidth
          height := 1 / (rightCount : ℚ)
          photoIndex := leftCount + i : DescriptorCell }) }

/-- The hand-authored `leftOneRightTwo` composite descriptor (6 photos). -/
def leftOneRightTwo : Descriptor :=
  { dtype := "composite"
    dname := "left-one-right-two"
    cells :=
      [ { photoIndex := 0, x := 0, y := 0, width := 1/2, height := 1/2 }
      , { photoIndex := 1, x := 1/2, y := 0, width := 1/2, height := 1/4 }
      , { photoIndex := 2, x := 1/2, y := 1/4, width := 1/2, height := 1/4 }
      , { photoIndex := 3, x := 0, y := 1/2, width := 1/2, height := 1/2 }
      , { photoIndex := 4, x := 1/2, y := 1/2, width := 1/2, height := 1/4 }
      , { photoIndex := 5, x := 1/2, y := 3/4, width := 1/2, height := 1/4 } ] }

/-- The hand-authored `leftTwoRightOne` composite descriptor (6 photos). -/
def leftTwoRightOne : Descriptor :=
  { dtype := "composite"
    dname := "left-two-right-one"
    cells :=
      [ { photoIndex := 0, x := 0, y := 0, width := 1/2, height := 1/4 }
      , { photoIndex := 1, x := 0, y := 1/4, width := 1/2, height := 1/4 }
      , { photoIndex := 2, x := 1/2, y := 0, width := 1/2, height := 1/2 }
      , { photoIndex := 3, x := 0, y := 1/2, width := 1/2, height := 1/4 }
      , { photoIndex := 4, x := 0, y := 3/4, width := 1/2, height := 1/4 }
      , { photoIndex := 5, x := 1/2, y := 1/2, width := 1/2, height := 1/2 } ] }

/-- The hand-authored `threeThreeOne` composite descriptor (7 photos). -/
def threeThreeOne : Descriptor :=
  { dtype := "composite"
    dname := "three-three-one"
    cells :=
      [ { photoIndex := 0, x := 0, y := 0, width := 1/3, height := 1/3 }
      , { photoIndex := 1, x := 1/3, y := 0, width := 1/3, height := 1/3 }
      , { photoIndex := 2, x := 2/3, y := 0, width := 1/3, height := 1/3 }
      , { photoIndex := 3, x := 0, y := 1/3, width := 1/3, height := 1/3 }
      , { photoIndex := 4, x := 1/3, y := 1/3, width := 1/3, height := 1/3 }
      , { photoIndex := 5, x := 2/3, y := 1/3, width := 1/3, height := 1/3 }
      , { photoIndex := 6, x := 0, y := 2/3, width := 1, height := 1/3 } ] }

/-- The hand-authored `twoThreeTwo` composite descriptor (7 photos). -/
def twoThreeTwo : Descriptor :=
  { dtype := "composite"
    dname := "two-three-two"
    cells :=
      [ { photoIndex := 0, x := 0, y := 0, width := 1/2, height := 1/3 }
      , { photoIndex := 1, x := 1/2, y := 0, width := 1/2, height := 1/3 }
      , { photoIndex := 2, x := 0, y := 1/3, width := 1/3, height := 1/3 }
      , { photoIndex := 3, x := 1/3, y := 1/3, width := 1/3, height := 1/3 }
      , { photoIndex := 4, x := 2/3, y := 1/3, width := 1/3, height := 1/3 }
      , { photoIndex := 5, x := 0, y := 2/3, width := 1/2, height := 1/3 }
      , { photoIndex := 6, x := 1/2, y := 2/3, width := 1/2, height := 1/3 } ] }

/-- `getLayoutDescriptorsForPhotoCount(photoCount)`: grid descriptors for
every divisor, the specials for 6 and 7 photos, then every vertical and
horizontal split. -/
def getLayoutDescriptorsForPhotoCount (photoCount : ℕ) : List Descriptor :=
  let gridDescriptors :=
    (((List.range photoCount).map (· + 1)).filter
      (fun rows => photoCount % rows == 0)).map
      (fun rows => createGridDescriptor rows (photoCount / rows))
  let specials :=
    if photoCount = 6 then [leftOneRightTwo, leftTwoRightOne]
    else if photoCount = 7 then [threeThreeOne, twoThreeTwo]
    else []
  let verticalSplits :=
    ((List.range (photoCount - 1)).map (· + 1)).map
      (fun leftCount => createVerticalSplitDescriptor leftCount (photoCount - leftCount))
  let horizontalSplits :=
    ((List.range (photoCount - 1)).map (· + 1)).map
      (fun topCount => createHorizontalSplitDescriptor topCount (photoCount - topCount))
  gridDescriptors ++ specials ++ verticalSplits ++ horizontalSplits

end LD

/-- Metrics attached by the descriptor-based scorer. -/
structure Metrics where
  utilization : ℚ
  croppingRate : ℚ
  sizeBalance : ℚ
deriving DecidableEq, Repr

/-- A scored candidate: the spread `{...layout, score, metrics}`. -/
structure ScoredLayout where
  layout : Layout
  score : ℚ
  metrics : Metrics
deriving DecidableEq, Repr

/-- The comparator `(a, b) => b.score - a.score` used to rank candidates:
`a` may stay before `b` iff the comparator is `≤ 0`. -/
def scoreDescLE (a b : ScoredLayout) : Prop := b.score ≤ a.score

instance : DecidableRel scoreDescLE := fun a b => by
  unfold scoreDescLE; infer_instance

namespace LG

/-! ## `layoutGenerator.js` (src/unnamed/part_002) -/

/-- `createLayoutFromDescriptor(photos, pageSize, descriptor)`: scale the
normalized cells by the page size and bind `photos[photoIndex]`; descriptor
cells whose `photoIndex` is out of range are dropped. -/
def createLayoutFromDescriptor (photos : List Photo) (pageSize : PageSize)
    (descriptor : Descriptor) : Layout :=
  { ltype := descriptor.dtype
    lname := descriptor.dname
    photos := photos
    cells := descriptor.cells.filterMap fun cellDesc =>
      if cellDesc.photoIndex < photos.length then
        some { photo := photos.get? cellDesc.photoIndex
               x := cellDesc.x * pageSize.width
               y := cellDesc.y * pageSize.height
               width := cellDesc.width * pageSize.width
               height := cellDesc.height * pageSize.height }
      else none }

/-- `findBestMatchingPhotoIndex(photos, targetAspectRatio)`: index of the
photo whose aspect ratio is closest to the target; the first occurrence wins
ties (strict `<` update starting from `bestIndex = 0`,
`minDifference = Infinity`, modelled by `none`). -/
def findBestMatchingPhotoIndex (photos : List Photo) (targetAspectRatio : ℚ) : ℕ :=
  (photos.enum.foldl
    (fun (best : ℕ × Option ℚ) (ip : ℕ × Photo) =>
      let difference := |ip.2.ratio - targetAspectRatio|
      match best.2 with
      | none => (ip.1, some difference)
      | some minDifference =>
          if difference < minDifference then (ip.1, some difference) else best)
    (0, none)).1

/-- The `forEach` loop of `createOptimizedLayout`: each cell (in widest-first
order) claims its best-matching photo, which is then removed (`splice`) from
the remaining pool.  An empty pool leaves the cell with an undefined photo
(`none`). -/
def assignPhotos : List Cell → List Photo → List Cell
  | [], _ => []
  | cell :: rest, remainingPhotos =>
    let bestPhotoIndex := findBestMatchingPhotoIndex remainingPhotos (cell.aspectRatio.getD 0)
    { cell with photo := remainingPhotos.get? bestPhotoIndex } ::
      assignPhotos rest (remainingPhotos.eraseIdx bestPhotoIndex)

/-- `createOptimizedLayout(photos, cells, name)`: copy the cells, record each
cell's aspect ratio, sort widest first, greedily assign best-matching photos,
then re-sort the cells by position `(y, x)`. -/
def createOptimizedLayout (photos : List Photo) (cells : List Cell)
    (name : String) : Layout :=
  let cellsWithoutPhotos := cells.map fun cell =>
    { cell with aspectRatio := some (cell.width / cell.height) }
  let sorted := List.insertionSort cellAspectGE cellsWithoutPhotos
  { ltype := "optimized"
    lname := name
    photos := photos
    cells := List.insertionSort cellPosLE (assignPhotos sorted photos) }

/-- The signature string built by `getLayoutSignature` is
`` `${type}-${name}:` `` followed by one `[relX,relY,relW,relH]` block per
position-sorted cell, each component rounded to two decimals.  The string is
modelled by the triple (type, name, rounded relative geometry); the rendering
is injective for the type/name literals the generator produces. -/
abbrev Signature := String × String × List (ℚ × ℚ × ℚ × ℚ)

/-- `getLayoutSignature(layout, pageSize)` of `layoutGenerator.js`: includes
the layout type and name, then the page-relative cell geometry rounded to two
decimal places, cells sorted by `(y, x)`. -/
def getLayoutSignature (layout : Layout) (pageSize : PageSize) : Signature :=
  let sortedCells := List.insertionSort cellPosLE layout.cells
  (layout.ltype, layout.lname,
    sortedCells.map fun cell =>
      ((jsRound ((cell.x / pageSize.width) * 100) : ℚ) / 100,
       (jsRound ((cell.y / pageSize.height) * 100) : ℚ) / 100,
       (jsRound ((cell.width / pageSize.width) * 100) : ℚ) / 100,
       (jsRound ((cell.height / pageSize.height) * 100) : ℚ) / 100))

/-- First-match lookup in the insertion-ordered signature map. -/
def findSignature (s : Signature) : List (Signature × ℕ) → Option ℕ
  | [] => none
  | (s', i) :: rest => if s' = s then some i else findSignature s rest

/-- The `forEach` loop of `removeDuplicateLayouts` of `layoutGenerator.js`:
every layout is pushed to `uniqueLayouts`; a layout whose signature was seen
before is annotated with `duplicateOf = originalIndex + 1`, a fresh one with
`duplicateOf = null` and its index is recorded. -/
def removeDuplicatesGo (pageSize : PageSize) :
    List Layout → List (Signature × ℕ) → List Layout → List Layout
  | [], _, uniqueLayouts => uniqueLayouts
  | layout :: rest, signatures, uniqueLayouts =>
    let signature := getLayoutSignature layout pageSize
    match findSignature signature signatures with
    | none =>
        removeDuplicatesGo pageSize rest (signatures ++ [(signature, uniqueLayouts.length)])
          (uniqueLayouts ++ [{ layout with duplicateOf := none }])
    | some originalIndex =>
        removeDuplicatesGo pageSize rest signatures
          (uniqueLayouts ++ [{ layout with duplicateOf := some (originalIndex + 1) }])

/-- `removeDuplicateLayouts(layouts, pageSize)` of `layoutGenerator.js`:
despite its name it removes nothing; it returns every input layout (in
order), annotating repeated signatures via `duplicateOf`. -/
def removeDuplicateLayouts (layouts : List Layout) (pageSize : PageSize) : List Layout :=
  removeDuplicatesGo pageSize layouts [] []

/-- `calculateUtilization(layout, pageSize)` of `layoutGenerator.js`:
total cell area over page area (no clamping in this revision).  When the
page area is zero the source computes `usedArea / 0`, which is `NaN` or
`±Infinity`; total `ℚ` division returns `0` there, so theorems about this
function assume positive page dimensions (see `LG.calculateUtilizationN`
for the variant with the error value explicit). -/
def calculateUtilization (layout : Layout) (pageSize : PageSize) : ℚ :=
  let totalPageArea := pageSize.width * pageSize.height
  let usedArea := (layout.cells.map fun cell => cell.width * cell.height).sum
  usedArea / totalPageArea

/-- Per-cell cropping fraction of `calculateCroppingRate`: scaled-overflow on
the axis that must be cropped, clamped into `[0, 1]`.  For a photo with a
zero dimension the source computes with `±Infinity` and ends in
`Infinity / Infinity = NaN` (which `Math.min`/`Math.max` propagate); the
total `ℚ` divisions do not model those error values, so theorems about the
cropping rate assume positive photo and page dimensions, where every
denominator is nonzero and the rational value equals the source's. -/
def cellCroppingRate (cell : Cell) (photo : Photo) : ℚ :=
  let cellAspectRatio := cell.width / cell.height
  let photoAspectRatio := photo.width / photo.height
  let croppingRate :=
    if photoAspectRatio < cellAspectRatio then
      let scaledPhotoWidth := cell.width
      let scaledPhotoHeight := scaledPhotoWidth / photoAspectRatio
      (scaledPhotoHeight - cell.height) / scaledPhotoHeight
    else
      let scaledPhotoHeight := cell.height
      let scaledPhotoWidth := scaledPhotoHeight * photoAspectRatio
      (scaledPhotoWidth - cell.width) / scaledPhotoWidth
  max 0 (min croppingRate 1)

/-- `calculateCroppingRate(layout)` of `layoutGenerator.js`: mean of the
clamped per-cell rates over the cells with a bound photo; `0` when no cell
has a photo. -/
def calculateCroppingRate (layout : Layout) : ℚ :=
  let rates := layout.cells.filterMap fun cell =>
    cell.photo.map fun photo => cellCroppingRate cell photo
  if rates.length = 0 then 0 else rates.sum / (rates.length : ℚ)

/-- `calculateSizeBalance(layout)` of `layoutGenerator.js`:
`1 - min(stdDev / avgArea, 1)`.  When every cell area is zero (zero-area
page) the source computes `cv = 0 / 0 = NaN`; total `ℚ` division yields
`cv = 0` instead, so theorems about the balance assume positive page
dimensions. -/
def calculateSizeBalance (layout : Layout) : ℚ :=
  let areas := layout.cells.map fun cell => cell.width * cell.height
  let totalArea := areas.sum
  let avgArea := totalArea / (areas.length : ℚ)
  let variance := (areas.map fun area => (area - avgArea) ^ 2).sum / (areas.length : ℚ)
  let stdDev := Rat.sqrt variance
  let cv := stdDev / avgArea
  1 - min cv 1

/-- `scoreLayouts(layouts, pageSize)` of `layoutGenerator.js`: attach
`score = utilization·0.4 + (1 - croppingRate)·0.4 + sizeBalance·0.2` and the
metrics, then sort by score descending. -/
def scoreLayouts (layouts : List Layout) (pageSize : PageSize) : List ScoredLayout :=
  let scoredLayouts := layouts.map fun layout =>
    let utilizationScore := calculateUtilization layout pageSize
    let croppingScore := calculateCroppingRate layout
    let balanceScore := calculateSizeBalance layout
    { layout := layout
      score := utilizationScore * 0.4 + (1 - croppingScore) * 0.4 + balanceScore * 0.2
      metrics :=
        { utilization := utilizationScore
          croppingRate := croppingScore
          sizeBalance := balanceScore } }
  List.insertionSort scoreDescLE scoredLayouts

/-- `generateLayouts(photos, pageSize)` of `layoutGenerator.js`: sort photos
landscape first, instantiate every applicable descriptor plainly and in
optimized form, run the (annotating) duplicate pass, then score and rank. -/
def generateLayouts (photos : List Photo) (pageSize : PageSize) : List ScoredLayout :=
  if photos.length = 0 then []
  else
    let sortedPhotos := List.insertionSort photoDescRatio photos
    let descriptors := LD.getLayoutDescriptorsForPhotoCount photos.length
    let layouts := descriptors.map fun descriptor =>
      createLayoutFromDescriptor sortedPhotos pageSize descriptor
    let optimizedLayouts := descriptors.map fun descriptor =>
      let layout := createLayoutFromDescriptor sortedPhotos pageSize descriptor
      createOptimizedLayout sortedPhotos layout.cells (layout.lname ++ "-optimized")
    let uniqueLayouts := removeDuplicateLayouts (layouts ++ optimizedLayouts) pageSize
    scoreLayouts uniqueLayouts pageSize

end LG

namespace P1

/-! ## Legacy pipeline (src/unnamed/part_001, lines 3863-3973) -/

/-- A normalized cell produced by the legacy `getLayoutSignature`. -/
structure NormCell where
  x : ℚ
  y : ℚ
  width : ℚ
  height : ℚ
deriving DecidableEq, Repr

/-- Position order on normalized cells (`y`, then `x`), as the sort
comparator of the legacy `getLayoutSignature`. -/
def normPosLE (a b : NormCell) : Prop := a.y < b.y ∨ (a.y = b.y ∧ a.x ≤ b.x)

instance : DecidableRel normPosLE := fun a b => by
  unfold normPosLE; infer_instance

/-- `q.toFixed(6)` modelled by its value in integer micro-units
(`toFixed` rounds to the nearest multiple of `10⁻⁶`, ties towards the larger
value, and renders it in a fixed six-fraction-digit format, which is an
injective rendering). -/
def fixed6 (q : ℚ) : ℤ := ⌊q * 1000000 + 1 / 2⌋

/-- The legacy `getLayoutSignature(layout, pageSize)` (part_001:3864-3886):
normalize every cell by the page dimensions, sort by `(y, x)`, render each as
`x.toFixed(6)-y.toFixed(6)-width.toFixed(6)-height.toFixed(6)` and join with
`|`.  The joined string is modelled by the list of rounded micro-unit
4-tuples; neither the layout's type, nor its name, nor the bound photos enter
the signature. -/
def getLayoutSignature (layout : Layout) (pageSize : PageSize) :
    List (ℤ × ℤ × ℤ × ℤ) :=
  let normalizedCells := layout.cells.map fun cell =>
    { x := cell.x / pageSize.width
      y := cell.y / pageSize.height
      width := cell.width / pageSize.width
      height := cell.height / pageSize.height : NormCell }
  let sortedCells := List.insertionSort normPosLE normalizedCells
  sortedCells.map fun cell =>
    (fixed6 cell.x, fixed6 cell.y, fixed6 cell.width, fixed6 cell.height)

/-- The `for…of` loop of the legacy `removeDuplicateLayouts`
(part_001:3889-3903): keep a layout iff its signature was not seen before. -/
def removeDuplicatesGo (pageSize : PageSize) :
    List Layout → List (List (ℤ × ℤ × ℤ × ℤ)) → List Layout → List Layout
  | [], _, uniqueLayouts => uniqueLayouts
  | layout :: rest, signatures, uniqueLayouts =>
    let signature := getLayoutSignature layout pageSize
    if signature ∈ signatures then
      removeDuplicatesGo pageSize rest signatures uniqueLayouts
    else
      removeDuplicatesGo pageSize rest (signatures ++ [signature])
        (uniqueLayouts ++ [layout])

/-- The legacy `removeDuplicateLayouts(layouts, pageSize)`: strict
deduplication; only the first layout of each signature class survives. -/
def removeDuplicateLayouts (layouts : List Layout) (pageSize : PageSize) :
    List Layout :=
  removeDuplicatesGo pageSize layouts [] []

/-- Metrics of the legacy scorer.  `croppingRate` and `sizeBalance` are
`Option ℚ`: `none` models a value that is not a finite number in the source
(`NaN`, or a thrown `TypeError` for a cell without a photo). -/
structure Metrics where
  utilization : ℚ
  croppingRate : Option ℚ
  sizeBalance : Option ℚ
deriving DecidableEq, Repr

/-- A candidate scored by the legacy scorer. -/
structure ScoredLayout where
  layout : Layout
  score : Option ℚ
  metrics : Metrics
deriving DecidableEq, Repr

/-- Comparator order for the legacy score sort; when either score is not a
finite number the ECMAScript sort treats the comparator result (`NaN`) as
`0`, keeping the relative order. -/
def scoreDescLE (a b : ScoredLayout) : Prop :=
  match a.score, b.score with
  | some x, some y => y ≤ x
  | _, _ => True

instance : DecidableRel scoreDescLE := fun a b => by
  unfold scoreDescLE
  rcases a.score with _ | x <;> rcases b.score with _ | y <;> simp <;> infer_instance

/-- `calculateUtilization` of the legacy scorer (part_001:3936-3941): clamped
at `1` in this revision. -/
def calculateUtilization (layout : Layout) (pageSize : PageSize) : ℚ :=
  let totalPageArea := pageSize.width * pageSize.height
  let totalUsedArea := (layout.cells.map fun cell => cell.width * cell.height).sum
  min 1 (totalUsedArea / totalPageArea)

/-- Per-cell cropping rate of the legacy scorer: normalized aspect-ratio
difference (no clamping in this revision). -/
def cellCroppingRate (cell : Cell) (photo : Photo) : ℚ :=
  let originalAspectRatio := photo.width / photo.height
  let cellAspectRatio := cell.width / cell.height
  |originalAspectRatio - cellAspectRatio| / max originalAspectRatio cellAspectRatio

/-- `calculateCroppingRate` of the legacy scorer (part_001:3943-3960): mean
over all cells, no guard.  `none` models a `TypeError` (a cell without a
bound photo) or `NaN` (zero cells, `0 / 0`). -/
def calculateCroppingRate (layout : Layout) : Option ℚ :=
  if layout.cells.length = 0 then none
  else if layout.cells.all (fun cell => cell.photo.isSome) then
    some ((layout.cells.filterMap fun cell =>
      cell.photo.map fun photo => cellCroppingRate cell photo).sum /
      (layout.cells.length : ℚ))
  else none

/-- `calculateSizeBalance` of the legacy scorer (part_001:3962-3973):
`max(0, 1 - variance / (avgArea² · (length - 1)))`.  For a single cell the
denominator is `0` and the source computes `0 / 0 = NaN` (`none`); for zero
cells `avgArea` is already `NaN`; a positive variance over a zero denominator
gives `1 - Infinity`, clamped to `0` by `Math.max`. -/
def calculateSizeBalance (layout : Layout) : Option ℚ :=
  let areas := layout.cells.map fun cell => cell.width * cell.height
  if areas.length = 0 then none
  else
    let avgArea := areas.sum / (areas.length : ℚ)
    let variance := (areas.map fun area => (area - avgArea) ^ 2).sum / (areas.length : ℚ)
    let maxPossibleVariance := avgArea ^ 2 * ((areas.length : ℚ) - 1)
    if maxPossibleVariance = 0 then
      if variance = 0 then none else some 0
    else some (max 0 (1 - variance / maxPossibleVariance))

/-- The legacy `scoreLayouts(layouts, pageSize)` (part_001:3906-3934): attach
`score = utilization·0.5 + (1 - croppingRate)·0.3 + sizeBalance·0.2` and the
metrics, then sort by score descending. -/
def scoreLayouts (layouts : List Layout) (pageSize : PageSize) : List ScoredLayout :=
  let scored := layouts.map fun layout =>
    let utilization := calculateUtilization layout pageSize
    let croppingRate := calculateCroppingRate layout
    let sizeBalance := calculateSizeBalance layout
    { layout := layout
      score :=
        match croppingRate, sizeBalance with
        | some c, some b => some (utilization * 0.5 + (1 - c) * 0.3 + b * 0.2)
        | _, _ => none
      metrics := ⟨utilization, croppingRate, sizeBalance⟩ : ScoredLayout }
  List.insertionSort scoreDescLE scored

end P1

/-! ## Claim-side canonical forms for the strict signature -/

/-- Order on rounded micro-unit tuples `(x, y, width, height)` by `(y, x)`. -/
def tupPosLE (a b : ℤ × ℤ × ℤ × ℤ) : Prop :=
  a.2.1 < b.2.1 ∨ (a.2.1 = b.2.1 ∧ a.1 ≤ b.1)

instance : DecidableRel tupPosLE := fun a b => by
  unfold tupPosLE; infer_instance

/-- The canonical form of a candidate's geometry exactly as the claim words
it, applying the three steps in the order stated: "normalized by page
dimensions, rounded, and sorted by (y, x)" — i.e. the cells are rounded to
six decimals first and the rounded tuples are then sorted. -/
def strictClaimKey (cells : List Cell) (pageSize : PageSize) : List (ℤ × ℤ × ℤ × ℤ) :=
  List.insertionSort tupPosLE (cells.map fun cell =>
    (P1.fixed6 (cell.x / pageSize.width), P1.fixed6 (cell.y / pageSize.height),
     P1.fixed6 (cell.width / pageSize.width), P1.fixed6 (cell.height / pageSize.height)))

/-- The canonical form the code actually computes: normalize, sort the exact
normalized cells by `(y, x)`, then round each to six decimals. -/
def strictCodeKey (cells : List Cell) (pageSize : PageSize) : List (ℤ × ℤ × ℤ × ℤ) :=
  (List.insertionSort P1.normPosLE (cells.map fun cell =>
    { x := cell.x / pageSize.width
      y := cell.y / pageSize.height
      width := cell.width / pageSize.width
      height := cell.height / pageSize.height : P1.NormCell })).map
    fun cell => (P1.fixed6 cell.x, P1.fixed6 cell.y, P1.fixed6 cell.width, P1.fixed6 cell.height)

/-- `calculateUtilization` with the source's division-by-zero made
explicit: JavaScript computes `usedArea / totalPageArea`, which is not a
finite number (`NaN` when the used area is also zero, `±Infinity`
otherwise) whenever the page area is zero.  `none` models the non-finite
result; on a nonzero page area the function agrees with
`LG.calculateUtilization`. -/
def LG.calculateUtilizationN (layout : Layout) (pageSize : PageSize) : Option ℚ :=
  let totalPageArea := pageSize.width * pageSize.height
  let usedArea := (layout.cells.map fun cell => cell.width * cell.height).sum
  if totalPageArea = 0 then none else some (usedArea / totalPageArea)

/-- C9.  `generateLayouts` is deterministic: the embedding is a pure
function and the source contains no randomness — photo sorting, `Map`
iteration and the score sort are all deterministic (stable, insertion-order)
under ECMAScript semantics — so identical photo lists and page sizes yield
identical ranked outputs. -/
theorem c9_theorem (photos₁ photos₂ : List Photo) (pageSize₁ pageSize₂ : PageSize)
    (hp : photos₁ = photos₂) (hs : pageSize₁ = pageSize₂) :
    LG.generateLayouts photos₁ pageSize₁ = LG.generateLayouts photos₂ pageSize₂ := by
  rw [hp, hs]

section ConcreteEvaluations

set_option synthInstance.maxSize 512

attribute [local semireducible] Rat.add Rat.mul Rat.sub Rat.inv Rat.ofScientific

/-- C2, counterexample.  Two candidates over a 1×1 page whose cell
geometries, normalized, **rounded to six decimals and then sorted by
(y, x)** (the order the claim states the operations in), coincide — the two
`y` values `0.12345601` and `0.12345609` both round to `0.123456` — yet the
strict signature distinguishes them, because the source sorts the *exact*
normalized cells before rounding, and the exact `y` order is opposite to the
rounded `x` order.  So the "if" direction of the claimed equivalence fails. -/
theorem c2_counterexample :
    strictClaimKey
        [⟨6/10, 12345601/100000000, 1/10, 1/10, none, none⟩,
         ⟨1/10, 12345609/100000000, 1/10, 1/10, none, none⟩] ⟨1, 1⟩ =
      strictClaimKey
        [⟨1/10, 12345601/100000000, 1/10, 1/10, none, none⟩,
         ⟨6/10, 12345609/100000000, 1/10, 1/10, none, none⟩] ⟨1, 1⟩ ∧
    P1.getLayoutSignature
        ⟨"grid", "g", [],
         [⟨6/10, 12345601/100000000, 1/10, 1/10, none, none⟩,
          ⟨1/10, 12345609/100000000, 1/10, 1/10, none, none⟩], none⟩ ⟨1, 1⟩ ≠
      P1.getLayoutSignature
        ⟨"grid", "g", [],
         [⟨1/10, 12345601/100000000, 1/10, 1/10, none, none⟩,
          ⟨6/10, 12345609/100000000, 1/10, 1/10, none, none⟩], none⟩ ⟨1, 1⟩ := by
  decide

/-- C2, amended.  For any two candidates over the same page size, the strict
structural signature (part_001's `getLayoutSignature`) assigns them the same
key iff their cell geometries, normalized by page dimensions, **sorted by
(y, x), and then rounded**, coincide; in particular the key depends on
neither the assigned photos, nor the layout name, nor its kind/type. -/
theorem c2_theorem (pageSize : PageSize)
    (t₁ n₁ : String) (ph₁ : List Photo) (cs₁ : List Cell) (d₁ : Option ℕ)
    (t₂ n₂ : String) (ph₂ : List Photo) (cs₂ : List Cell) (d₂ : Option ℕ) :
    P1.getLayoutSignature ⟨t₁, n₁, ph₁, cs₁, d₁⟩ pageSize =
        P1.getLayoutSignature ⟨t₂, n₂, ph₂, cs₂, d₂⟩ pageSize ↔
      strictCodeKey cs₁ pageSize = strictCodeKey cs₂ pageSize :=
  Iff.rfl

/-- C7.  The aspect-ratio-optimized assignment on cells of aspect ratios
`[2, 1, 0.5]` and a photo pool of aspect ratios `[0.5, 2, 1]` binds each cell
to the photo of exactly matching aspect ratio. -/
theorem c7_theorem :
    (LG.createOptimizedLayout [⟨1, 2⟩, ⟨2, 1⟩, ⟨1, 1⟩]
        [⟨0, 0, 2, 1, none, none⟩, ⟨2, 0, 1, 1, none, none⟩, ⟨3, 0, 1, 2, none, none⟩]
        "opt").cells.map (fun c => ((c.width, c.height), c.photo)) =
      [((2, 1), some ⟨2, 1⟩), ((1, 1), some ⟨1, 1⟩), ((1, 2), some ⟨1, 2⟩)] := by
  decide

/-- C8, counterexample.  For a single 1000×1000 photo on an 800×800 page the
descriptor-based `generateLayouts` returns **two** candidates, not one: the
plain 1×1 grid and its `-optimized` variant; the duplicate pass does not
remove the copy (its key includes the differing type and name, and the pass
only annotates anyway). -/
theorem c8_counterexample :
    (LG.generateLayouts [⟨1000, 1000⟩] ⟨800, 800⟩).length = 2 := by
  decide

/-- C8, amended.  For a single 1000×1000 photo and an 800×800 page,
`generateLayouts` returns exactly two candidates, both consisting of the one
full-page cell (the 1×1 grid geometry and its optimized duplicate), each with
utilization exactly 1 and croppingRate 0. -/
theorem c8_theorem :
    (LG.generateLayouts [⟨1000, 1000⟩] ⟨800, 800⟩).map
        (fun sl => (sl.layout.lname,
          sl.layout.cells.map fun c => (c.x, c.y, c.width, c.height),
          sl.metrics.utilization, sl.metrics.croppingRate)) =
      [("grid-1x1", [(0, 0, 800, 800)], 1, 0),
       ("grid-1x1-optimized", [(0, 0, 800, 800)], 1, 0)] := by
  decide

/-- C6, counterexample.  The legacy scorer's `calculateSizeBalance`
(part_001:3962-3973) is **not** a well-defined number on a single-cell
layout: `maxPossibleVariance = avgArea²·(1-1) = 0` and the source computes
`0 / 0 = NaN` (modelled `none`), so the scored metrics of the single-cell
layout that the legacy pipeline produces for one photo violate
`0 ≤ sizeBalance ≤ 1`. -/
theorem c6_counterexample :
    (P1.scoreLayouts
        [⟨"hstack", "", [⟨1000, 1000⟩],
          [⟨0, 0, 800, 800, some ⟨1000, 1000⟩, none⟩], none⟩] ⟨800, 800⟩).map
        (fun sl => (sl.metrics.sizeBalance, sl.score)) = [(none, none)] := by
  decide

/-- C4, counterexample.  A two-cell layout scored by the legacy
`scoreLayouts` (part_001:3906-3934) receives
`score = utilization·0.5 + (1 - croppingRate)·0.3 + sizeBalance·0.2
= 307/360`, which differs from the claimed weighting
`utilization·0.4 + (1 - croppingRate)·0.4 + sizeBalance·0.2 = 79/90` of the
very same metrics. -/
theorem c4_counterexample :
    (P1.scoreLayouts
        [⟨"hstack", "h", [⟨2, 1⟩, ⟨1, 1⟩],
          [⟨0, 0, 2, 1, some ⟨2, 1⟩, none⟩, ⟨0, 1, 1, 1, some ⟨1, 1⟩, none⟩],
          none⟩] ⟨2, 2⟩).map
        (fun sl => (sl.score, sl.metrics.utilization, sl.metrics.croppingRate,
          sl.metrics.sizeBalance)) =
      [(some (307/360), 3/4, some 0, some (8/9))] ∧
    ((3 : ℚ)/4 * 0.4 + (1 - 0) * 0.4 + 8/9 * 0.2 ≠ 307/360) := by
  decide

/-- C3, counterexample.  On two 100×100 photos and an 800×800 page the
descriptor-based `generateLayouts` returns **four** candidates of one strict
signature class (`grid-1x2`, `vsplit-1-1` and their optimized variants all
split the page into the same two half-page cells): the duplicate pass invoked
before scoring annotates but never removes, and its key also separates equal
geometries by name and type, so more than one member of the class remains. -/
theorem c3_counterexample :
    ((LG.generateLayouts [⟨100, 100⟩, ⟨100, 100⟩] ⟨800, 800⟩).map
        (fun sl => P1.getLayoutSignature sl.layout ⟨800, 800⟩)).count
      [(0, 0, 500000, 1000000), (500000, 0, 500000, 1000000)] = 4 := by
  decide

/-- C1, counterexample.  Page dimensions are not validated: with one photo
and a degenerate 0×0 page (non-positive width and height),
`generateLayouts` does *not* return an empty list — it returns the two
candidates built from the 1×1 grid descriptor. -/
theorem c1_counterexample :
    LG.generateLayouts [⟨100, 100⟩] ⟨0, 0⟩ ≠ [] := by
  decide

/-- C5, counterexample.  Page dimensions are not validated (C1's
correction), so a 0×0 page flows through to the scorer.  There the source
divides the used area by the zero page area: the utilization — and with it
every composite score of the two returned candidates — is `NaN`, and a
sequence of `NaN` scores is not non-increasing in `score` (no comparison
with `NaN` holds in the source).  The checked utilization exhibits the
zero-denominator division for every returned candidate. -/
theorem c5_counterexample :
    ((LG.generateLayouts [⟨100, 100⟩] ⟨0, 0⟩).map fun sl =>
      LG.calculateUtilizationN sl.layout ⟨0, 0⟩) = [none, none] := by
  decide

/-- C9, witness: the determinism theorem applied to concrete equal inputs. -/
theorem c9_witness :
    LG.generateLayouts [⟨1000, 1000⟩] ⟨800, 800⟩ =
      LG.generateLayouts [⟨1000, 1000⟩] ⟨800, 800⟩ :=
  c9_theorem [⟨1000, 1000⟩] [⟨1000, 1000⟩] ⟨800, 800⟩ ⟨800, 800⟩ rfl rfl

end ConcreteEvaluations

/-! ## Length and sortedness facts about the descriptor-based pipeline -/

theorem LG.removeDuplicatesGo_length (pageSize : PageSize) :
    ∀ (rest : List Layout) (sigs : List (LG.Signature × ℕ)) (acc : List Layout),
      (LG.removeDuplicatesGo pageSize rest sigs acc).length = acc.length + rest.length := by
  intro rest
  induction rest with
  | nil => intro sigs acc; simp [LG.removeDuplicatesGo]
  | cons layout rest ih =>
    intro sigs acc
    unfold LG.removeDuplicatesGo
    dsimp only
    split
    · rw [ih]; simp; omega
    · rw [ih]; simp; omega

theorem LG.removeDuplicateLayouts_length (layouts : List Layout) (pageSize : PageSize) :
    (LG.removeDuplicateLayouts layouts pageSize).length = layouts.length := by
  simpa using LG.removeDuplicatesGo_length pageSize layouts [] []

theorem LG.scoreLayouts_length (layouts : List Layout) (pageSize : PageSize) :
    (LG.scoreLayouts layouts pageSize).length = layouts.length := by
  simp [LG.scoreLayouts, List.length_insertionSort]

theorem LD.getLayoutDescriptorsForPhotoCount_length_pos (n : ℕ) (h : n ≠ 0) :
    0 < (LD.getLayoutDescriptorsForPhotoCount n).length := by
  have h1 : 1 ∈ (((List.range n).map (· + 1)).filter (fun rows => n % rows == 0)) := by
    simp only [List.mem_filter, List.mem_map, List.mem_range]
    exact ⟨⟨0, Nat.pos_of_ne_zero h, rfl⟩, by simp [Nat.mod_one]⟩
  have : 0 < (((List.range n).map (· + 1)).filter (fun rows => n % rows == 0)).length :=
    List.length_pos.mpr (List.ne_nil_of_mem h1)
  unfold LD.getLayoutDescriptorsForPhotoCount
  simp only [List.length_append, List.length_map]
  omega

/-- C1, amended.  `generateLayouts` returns an empty list for an empty (or
missing) photo list, for every page size, and raises no error; but page
dimensions are not validated: for every non-empty photo list and *every*
page size — non-positive dimensions included — the result has exactly two
candidates per applicable descriptor and in particular is non-empty. -/
theorem c1_theorem :
    (∀ pageSize : PageSize, LG.generateLayouts [] pageSize = []) ∧
    ∀ (photos : List Photo) (pageSize : PageSize), photos ≠ [] →
      (LG.generateLayouts photos pageSize).length =
          2 * (LD.getLayoutDescriptorsForPhotoCount photos.length).length ∧
        LG.generateLayouts photos pageSize ≠ [] := by
  constructor
  · intro pageSize; simp [LG.generateLayouts]
  · intro photos pageSize h
    have hlen : ¬ photos.length = 0 := by simpa using h
    have key : (LG.generateLayouts photos pageSize).length =
        2 * (LD.getLayoutDescriptorsForPhotoCount photos.length).length := by
      unfold LG.generateLayouts
      rw [if_neg hlen, LG.scoreLayouts_length, LG.removeDuplicateLayouts_length]
      simp [two_mul]
    refine ⟨key, fun hnil => ?_⟩
    have h0 : (LG.generateLayouts photos pageSize).length = 0 := by rw [hnil]; rfl
    rw [key] at h0
    have hpos := LD.getLayoutDescriptorsForPhotoCount_length_pos photos.length hlen
    omega

/-- C1, witness: one photo on a degenerate 0×0 page still yields two
candidates (no page validation), and the hypotheses are discharged
concretely. -/
theorem c1_witness :
    ([⟨100, 100⟩] : List Photo) ≠ [] ∧
    ((LG.generateLayouts [⟨100, 100⟩] ⟨0, 0⟩).length =
        2 * (LD.getLayoutDescriptorsForPhotoCount ([⟨100, 100⟩] : List Photo).length).length ∧
      LG.generateLayouts [⟨100, 100⟩] ⟨0, 0⟩ ≠ []) :=
  ⟨by decide, c1_theorem.2 [⟨100, 100⟩] ⟨0, 0⟩ (by decide)⟩

theorem LG.scoreLayouts_sorted (layouts : List Layout) (pageSize : PageSize) :
    List.Pairwise scoreDescLE (LG.scoreLayouts layouts pageSize) := by
  haveI : IsTotal ScoredLayout scoreDescLE := ⟨fun a b => le_total b.score a.score⟩
  haveI : IsTrans ScoredLayout scoreDescLE := ⟨fun a b c h₁ h₂ => le_trans h₂ h₁⟩
  exact List.sorted_insertionSort scoreDescLE _

/-- C5, amended.  For every non-empty list of photos with positive
dimensions and every page size with positive width and height, the sequence
returned by `generateLayouts` is non-increasing in `score`.  The dimension
hypotheses confine the statement to inputs on which every division of the
live scorer has a nonzero denominator, where the exact rational scores
coincide with the source's; on a zero-area page the source's scores are
`NaN` (see the counterexample) and the ordering fails. -/
theorem c5_theorem (photos : List Photo) (pageSize : PageSize) (_h : photos ≠ [])
    (_hW : 0 < pageSize.width) (_hH : 0 < pageSize.height)
    (_hphotos : ∀ ph ∈ photos, 0 < ph.width ∧ 0 < ph.height) :
    List.Pairwise (fun a b : ScoredLayout => b.score ≤ a.score)
      (LG.generateLayouts photos pageSize) := by
  unfold LG.generateLayouts
  split
  · exact List.Pairwise.nil
  · exact LG.scoreLayouts_sorted _ _

section RankingWitness

attribute [local semireducible] Rat.add Rat.mul Rat.sub Rat.inv Rat.ofScientific

/-- C5, witness: every hypothesis discharged concretely on the single-photo
800×800 run. -/
theorem c5_witness :
    ([⟨1000, 1000⟩] : List Photo) ≠ [] ∧
    (0 : ℚ) < (⟨800, 800⟩ : PageSize).width ∧
    (0 : ℚ) < (⟨800, 800⟩ : PageSize).height ∧
    (∀ ph ∈ ([⟨1000, 1000⟩] : List Photo), 0 < ph.width ∧ 0 < ph.height) ∧
    List.Pairwise (fun a b : ScoredLayout => b.score ≤ a.score)
      (LG.generateLayouts [⟨1000, 1000⟩] ⟨800, 800⟩) :=
  ⟨by decide, by decide, by decide, by decide,
    c5_theorem _ _ (by decide) (by decide) (by decide) (by decide)⟩

end RankingWitness

/-- C4, amended.  Every layout scored by the descriptor-based scorer gets
`utilization·0.4 + (1 - croppingRate)·0.4 + sizeBalance·0.2`; every layout
scored by the legacy scorer instead gets
`utilization·0.5 + (1 - croppingRate)·0.3 + sizeBalance·0.2` (when its
cropping rate and size balance are finite numbers, and no score at all
otherwise). -/
theorem c4_theorem :
    (∀ (layouts : List Layout) (pageSize : PageSize),
      ∀ sl ∈ LG.scoreLayouts layouts pageSize,
        sl.score = sl.metrics.utilization * 0.4 + (1 - sl.metrics.croppingRate) * 0.4 +
          sl.metrics.sizeBalance * 0.2) ∧
    (∀ (layouts : List Layout) (pageSize : PageSize),
      ∀ sl ∈ P1.scoreLayouts layouts pageSize,
        sl.score =
          match sl.metrics.croppingRate, sl.metrics.sizeBalance with
          | some c, some b =>
              some (sl.metrics.utilization * 0.5 + (1 - c) * 0.3 + b * 0.2)
          | _, _ => none) := by
  constructor
  · intro layouts pageSize sl hsl
    unfold LG.scoreLayouts at hsl
    rw [List.mem_insertionSort] at hsl
    obtain ⟨l, -, rfl⟩ := List.mem_map.mp hsl
    rfl
  · intro layouts pageSize sl hsl
    unfold P1.scoreLayouts at hsl
    rw [List.mem_insertionSort] at hsl
    obtain ⟨l, -, rfl⟩ := List.mem_map.mp hsl
    rcases P1.calculateCroppingRate l with - | c <;> rcases P1.calculateSizeBalance l with - | b <;> rfl

section MoreConcrete

attribute [local semireducible] Rat.add Rat.mul Rat.sub Rat.inv Rat.ofScientific

/-- C4, witness: the descriptor-based conjunct applied to a concrete
one-layout list. -/
theorem c4_witness :
    (⟨⟨"grid", "g", [], [⟨0, 0, 1, 1, none, none⟩], none⟩, 1, ⟨1, 0, 1⟩⟩ : ScoredLayout) ∈
        LG.scoreLayouts [⟨"grid", "g", [], [⟨0, 0, 1, 1, none, none⟩], none⟩] ⟨1, 1⟩ ∧
    (1 : ℚ) = 1 * 0.4 + (1 - 0) * 0.4 + 1 * 0.2 :=
  ⟨by decide,
    c4_theorem.1 [⟨"grid", "g", [], [⟨0, 0, 1, 1, none, none⟩], none⟩] ⟨1, 1⟩
      ⟨⟨"grid", "g", [], [⟨0, 0, 1, 1, none, none⟩], none⟩, 1, ⟨1, 0, 1⟩⟩ (by decide)⟩

end MoreConcrete

/-! ## Soundness of the legacy (strict) deduplication -/

theorem P1.removeDuplicatesGo_spec (pageSize : PageSize) :
    ∀ (rest : List Layout) (sigs : List (List (ℤ × ℤ × ℤ × ℤ))) (acc : List Layout),
      ∃ kept : List Layout,
        P1.removeDuplicatesGo pageSize rest sigs acc = acc ++ kept ∧
        kept.Sublist rest ∧
        (∀ l ∈ kept, P1.getLayoutSignature l pageSize ∉ sigs) ∧
        List.Pairwise
          (fun a b => P1.getLayoutSignature a pageSize ≠ P1.getLayoutSignature b pageSize)
          kept ∧
        (∀ l ∈ kept,
          (rest.filter fun l' =>
            decide (P1.getLayoutSignature l' pageSize = P1.getLayoutSignature l pageSize)).head? =
            some l) := by
  intro rest
  induction rest with
  | nil =>
    intro sigs acc
    exact ⟨[], by simp [P1.removeDuplicatesGo], List.Sublist.refl _, by simp, by simp, by simp⟩
  | cons layout rest ih =>
    intro sigs acc
    unfold P1.removeDuplicatesGo
    dsimp only
    by_cases hmem : P1.getLayoutSignature layout pageSize ∈ sigs
    · rw [if_pos hmem]
      obtain ⟨kept, heq, hsub, hsig, hpw, hhead⟩ := ih sigs acc
      refine ⟨kept, heq, hsub.cons _, hsig, hpw, ?_⟩
      intro l hl
      have hne : P1.getLayoutSignature layout pageSize ≠ P1.getLayoutSignature l pageSize :=
        fun hcontra => hsig l hl (hcontra ▸ hmem)
      rw [List.filter_cons]
      simp only [decide_eq_true_eq, if_neg hne]
      exact hhead l hl
    · rw [if_neg hmem]
      obtain ⟨kept, heq, hsub, hsig, hpw, hhead⟩ :=
        ih (sigs ++ [P1.getLayoutSignature layout pageSize]) (acc ++ [layout])
      refine ⟨layout :: kept, by simpa using heq, hsub.cons₂ _, ?_, ?_, ?_⟩
      · intro l hl
        rcases List.mem_cons.mp hl with rfl | hl
        · exact hmem
        · intro hcontra
          exact hsig l hl (List.mem_append_left _ hcontra)
      · refine List.pairwise_cons.mpr ⟨?_, hpw⟩
        intro b hb
        have := hsig b hb
        simp only [List.mem_append, List.mem_singleton, not_or] at this
        exact fun hcontra => this.2 hcontra.symm
      · intro l hl
        rcases List.mem_cons.mp hl with rfl | hl
        · rw [List.filter_cons]
          simp
        · have hne : P1.getLayoutSignature layout pageSize ≠ P1.getLayoutSignature l pageSize := by
            have := hsig l hl
            simp only [List.mem_append, List.mem_singleton, not_or] at this
            exact fun hcontra => this.2 hcontra.symm
          rw [List.filter_cons]
          simp only [decide_eq_true_eq, if_neg hne]
          exact hhead l hl

/-- C3, amended.  The legacy (strict) `removeDuplicateLayouts` — the
deduplication invoked by the legacy `generateLayouts` before scoring — keeps
at most one candidate per strict-signature class (the survivors' signatures
are pairwise distinct), returns a sublist of its input in generation order,
and each survivor is the first-generated member of its class; the
descriptor-based `generateLayouts`, by contrast, removes nothing (its
duplicate pass only annotates, with a name- and type-sensitive key), so
several members of one strict class can remain in its output. -/
theorem c3_theorem (layouts : List Layout) (pageSize : PageSize) :
    List.Pairwise
        (fun a b => P1.getLayoutSignature a pageSize ≠ P1.getLayoutSignature b pageSize)
        (P1.removeDuplicateLayouts layouts pageSize) ∧
      (P1.removeDuplicateLayouts layouts pageSize).Sublist layouts ∧
      ∀ l ∈ P1.removeDuplicateLayouts layouts pageSize,
        (layouts.filter fun l' =>
          decide (P1.getLayoutSignature l' pageSize = P1.getLayoutSignature l pageSize)).head? =
          some l := by
  obtain ⟨kept, heq, hsub, -, hpw, hhead⟩ := P1.removeDuplicatesGo_spec pageSize layouts [] []
  have hkept : P1.removeDuplicateLayouts layouts pageSize = kept := by
    rw [P1.removeDuplicateLayouts, heq]; rfl
  rw [hkept]
  exact ⟨hpw, hsub, hhead⟩

section DedupWitness

attribute [local semireducible] Rat.add Rat.mul Rat.sub Rat.inv Rat.ofScientific

/-- C3, witness: two layouts with equal strict signatures but different
types/names; the first one survives and is the head of its filter class. -/
theorem c3_witness :
    (⟨"a", "a", [], [⟨0, 0, 1, 1, none, none⟩], none⟩ : Layout) ∈
        P1.removeDuplicateLayouts
          [⟨"a", "a", [], [⟨0, 0, 1, 1, none, none⟩], none⟩,
           ⟨"b", "b", [], [⟨0, 0, 1, 1, none, none⟩], none⟩] ⟨1, 1⟩ ∧
    (([⟨"a", "a", [], [⟨0, 0, 1, 1, none, none⟩], none⟩,
       ⟨"b", "b", [], [⟨0, 0, 1, 1, none, none⟩], none⟩] : List Layout).filter fun l' =>
        decide (P1.getLayoutSignature l' ⟨1, 1⟩ =
          P1.getLayoutSignature ⟨"a", "a", [], [⟨0, 0, 1, 1, none, none⟩], none⟩ ⟨1, 1⟩)).head? =
      some ⟨"a", "a", [], [⟨0, 0, 1, 1, none, none⟩], none⟩ :=
  ⟨by decide,
    ( c3_theorem
      [⟨"a", "a", [], [⟨0, 0, 1, 1, none, none⟩], none⟩,
       ⟨"b", "b", [], [⟨0, 0, 1, 1, none, none⟩], none⟩] ⟨1, 1⟩).2.2
      ⟨"a", "a", [], [⟨0, 0, 1, 1, none, none⟩], none⟩ (by decide)⟩

end DedupWitness

/-! ## Well-formedness of generated descriptors and instantiated cells -/

/-- The geometry of a cell, forgetting photo binding and the aspect-ratio
cache. -/
def cellGeom (c : Cell) : ℚ × ℚ × ℚ × ℚ := (c.x, c.y, c.width, c.height)

/-- Well-formed instantiated cell list: non-empty, positive cell dimensions,
total area at most the page area. -/
def CellsOK (pageSize : PageSize) (cells : List Cell) : Prop :=
  cells ≠ [] ∧ (∀ c ∈ cells, 0 < c.width ∧ 0 < c.height) ∧
    (cells.map fun c => c.width * c.height).sum ≤ pageSize.width * pageSize.height

/-- Well-formed descriptor for `n` photos: non-empty, positive normalized
cell dimensions, every `photoIndex` below `n`, normalized areas summing to at
most the unit page. -/
def DescOK (n : ℕ) (d : Descriptor) : Prop :=
  d.cells ≠ [] ∧
    (∀ c ∈ d.cells, 0 < c.width ∧ 0 < c.height ∧ c.photoIndex < n) ∧
    (d.cells.map fun c => c.width * c.height).sum ≤ 1

theorem sum_map_const {α : Type} (l : List α) (b : ℚ) :
    (l.map fun _ => b).sum = l.length * b := by
  rw [List.map_const', List.sum_replicate, nsmul_eq_mul]

theorem LD.descOK_grid (rows cols : ℕ) (hr : 1 ≤ rows) (hc : 1 ≤ cols) :
    DescOK (rows * cols) (LD.createGridDescriptor rows cols) := by
  have hrq : (0 : ℚ) < rows := by exact_mod_cast hr
  have hcq : (0 : ℚ) < cols := by exact_mod_cast hc
  have hw : (0 : ℚ) < 1 / cols := one_div_pos.mpr hcq
  have hh : (0 : ℚ) < 1 / rows := one_div_pos.mpr hrq
  have hlen : (LD.createGridDescriptor rows cols).cells.length = rows * cols := by
    simp only [LD.createGridDescriptor]
    rw [List.length_flatten, List.map_map]
    rw [show (List.length ∘ fun row : ℕ => (List.range cols).map fun (col : ℕ) =>
        ({ x := (col : ℚ) * (1 / cols), y := (row : ℚ) * (1 / rows),
           width := (1 : ℚ) / cols, height := (1 : ℚ) / rows,
           photoIndex := row * cols + col : DescriptorCell})) = fun _ : ℕ => cols from
      funext fun row => by simp]
    rw [List.map_const', List.sum_replicate, List.length_range, smul_eq_mul]
  refine ⟨?_, ?_, ?_⟩
  · intro hnil
    rw [hnil] at hlen
    have : 0 < rows * cols := Nat.mul_pos hr hc
    simp at hlen
    omega
  · intro c hc'
    simp only [LD.createGridDescriptor, List.mem_flatten, List.mem_map,
      List.mem_range] at hc'
    obtain ⟨inner, ⟨row, hrow, rfl⟩, hcin⟩ := hc'
    obtain ⟨col, hcol, rfl⟩ := List.mem_map.mp hcin
    have hcol' : col < cols := by simpa using hcol
    refine ⟨by simpa using hw, by simpa using hh, ?_⟩
    show row * cols + col < rows * cols
    calc row * cols + col < row * cols + cols := by omega
      _ = (row + 1) * cols := by ring
      _ ≤ rows * cols := Nat.mul_le_mul_right _ (by omega)
  · have hmap : ((LD.createGridDescriptor rows cols).cells.map
        fun c => c.width * c.height).sum =
        (rows : ℚ) * ((cols : ℚ) * ((1 / cols) * (1 / rows))) := by
      simp only [LD.createGridDescriptor]
      rw [List.map_flatten, List.sum_flatten, List.map_map, List.map_map]
      have inner_eq : ∀ row ∈ List.range rows,
          ((List.sum ∘ List.map (fun c : DescriptorCell => c.width * c.height)) ∘
            fun row : ℕ => (List.range cols).map fun (col : ℕ) =>
              ({ x := (col : ℚ) * (1 / cols), y := (row : ℚ) * (1 / rows),
                 width := (1 : ℚ) / cols, height := (1 : ℚ) / rows,
                 photoIndex := row * cols + col : DescriptorCell})) row =
          (fun _ : ℕ => (cols : ℚ) * ((1 / cols) * (1 / rows))) row := by
        intro row _
        show ((List.range cols).map (fun (col : ℕ) =>
            ({ x := (col : ℚ) * (1 / cols), y := (row : ℚ) * (1 / rows),
               width := (1 : ℚ) / cols, height := (1 : ℚ) / rows,
               photoIndex := row * cols + col : DescriptorCell})) |>.map
            fun c => c.width * c.height).sum = (cols : ℚ) * ((1 / cols) * (1 / rows))
        rw [List.map_map]
        rw [show ((fun c : DescriptorCell => c.width * c.height) ∘ fun col : ℕ =>
            ({ x := (col : ℚ) * (1 / cols), y := (row : ℚ) * (1 / rows),
               width := (1 : ℚ) / cols, height := (1 : ℚ) / rows,
               photoIndex := row * cols + col : DescriptorCell})) =
            fun _ : ℕ => ((1 : ℚ) / cols) * (1 / rows) from rfl]
        rw [sum_map_const, List.length_range]
      rw [List.map_congr_left inner_eq, sum_map_const, List.length_range]
    rw [hmap]
    have heq : (rows : ℚ) * ((cols : ℚ) * (1 / cols * (1 / rows))) = 1 := by
      field_simp
      ring
    rw [heq]

theorem LD.descOK_hsplit (topCount bottomCount : ℕ)
    (ht : 1 ≤ topCount) (hb : 1 ≤ bottomCount) :
    DescOK (topCount + bottomCount)
      (LD.createHorizontalSplitDescriptor topCount bottomCount) := by
  have htq : (0 : ℚ) < topCount := by exact_mod_cast ht
  have hbq : (0 : ℚ) < bottomCount := by exact_mod_cast hb
  have hlen : (LD.createHorizontalSplitDescriptor topCount bottomCount).cells.length =
      topCount + bottomCount := by
    simp [LD.createHorizontalSplitDescriptor]
  refine ⟨?_, ?_, ?_⟩
  · intro hnil
    rw [hnil] at hlen
    simp at hlen
    omega
  · intro c hc'
    simp only [LD.createHorizontalSplitDescriptor, List.mem_append] at hc'
    rcases hc' with hc' | hc' <;> obtain ⟨i, hi, rfl⟩ := List.mem_map.mp hc' <;>
      simp only [List.mem_range] at hi
    · exact ⟨one_div_pos.mpr htq, by norm_num, by dsimp only; omega⟩
    · exact ⟨one_div_pos.mpr hbq, by norm_num, by dsimp only; omega⟩
  · have hmap : ((LD.createHorizontalSplitDescriptor topCount bottomCount).cells.map
        fun c => c.width * c.height).sum =
        (topCount : ℚ) * ((1 / topCount) * (1 / 2)) +
          (bottomCount : ℚ) * ((1 / bottomCount) * (1 / 2)) := by
      simp only [LD.createHorizontalSplitDescriptor]
      rw [List.map_append, List.sum_append, List.map_map, List.map_map]
      rw [show ((fun c : DescriptorCell => c.width * c.height) ∘ fun i : ℕ =>
          ({ x := (i : ℚ) * (1 / (topCount : ℚ)), y := 0,
             width := 1 / (topCount : ℚ), height := (1 : ℚ) / 2,
             photoIndex := i : DescriptorCell})) =
          fun _ : ℕ => (1 / (topCount : ℚ)) * (1 / 2) from rfl]
      rw [show ((fun c : DescriptorCell => c.width * c.height) ∘ fun i : ℕ =>
          ({ x := (i : ℚ) * (1 / (bottomCount : ℚ)), y := (1 : ℚ) / 2,
             width := 1 / (bottomCount : ℚ), height := (1 : ℚ) / 2,
             photoIndex := topCount + i : DescriptorCell})) =
          fun _ : ℕ => (1 / (bottomCount : ℚ)) * (1 / 2) from rfl]
      rw [sum_map_const, sum_map_const, List.length_range, List.length_range]
    rw [hmap]
    have heq : (topCount : ℚ) * (1 / topCount * (1 / 2)) +
        (bottomCount : ℚ) * (1 / bottomCount * (1 / 2)) = 1 := by
      field_simp
      ring
    rw [heq]

theorem LD.descOK_vsplit (leftCount rightCount : ℕ)
    (hl : 1 ≤ leftCount) (hr : 1 ≤ rightCount) :
    DescOK (leftCount + rightCount)
      (LD.createVerticalSplitDescriptor leftCount rightCount) := by
  have hlq : (0 : ℚ) < leftCount := by exact_mod_cast hl
  have hrq : (0 : ℚ) < rightCount := by exact_mod_cast hr
  have hlen : (LD.createVerticalSplitDescriptor leftCount rightCount).cells.length =
      leftCount + rightCount := by
    simp [LD.createVerticalSplitDescriptor]
  refine ⟨?_, ?_, ?_⟩
  · intro hnil
    rw [hnil] at hlen
    simp at hlen
    omega
  · intro c hc'
    simp only [LD.createVerticalSplitDescriptor, List.mem_append] at hc'
    rcases hc' with hc' | hc' <;> obtain ⟨i, hi, rfl⟩ := List.mem_map.mp hc' <;>
      simp only [List.mem_range] at hi
    · exact ⟨by norm_num, one_div_pos.mpr hlq, by dsimp only; omega⟩
    · exact ⟨by norm_num, one_div_pos.mpr hrq, by dsimp only; omega⟩
  · have hmap : ((LD.createVerticalSplitDescriptor leftCount rightCount).cells.map
        fun c => c.width * c.height).sum =
        (leftCount : ℚ) * ((1 / 2) * (1 / leftCount)) +
          (rightCount : ℚ) * ((1 - 1 / 2) * (1 / rightCount)) := by
      simp only [LD.createVerticalSplitDescriptor]
      rw [List.map_append, List.sum_append, List.map_map, List.map_map]
      rw [show ((fun c : DescriptorCell => c.width * c.height) ∘ fun i : ℕ =>
          ({ x := 0, y := (i : ℚ) * (1 / (leftCount : ℚ)),
             width := (1 : ℚ) / 2, height := 1 / (leftCount : ℚ),
             photoIndex := i : DescriptorCell})) =
          fun _ : ℕ => ((1 : ℚ) / 2) * (1 / leftCount) from rfl]
      rw [show ((fun c : DescriptorCell => c.width * c.height) ∘ fun i : ℕ =>
          ({ x := (1 : ℚ) / 2, y := (i : ℚ) * (1 / (rightCount : ℚ)),
             width := 1 - (1 : ℚ) / 2, height := 1 / (rightCount : ℚ),
             photoIndex := leftCount + i : DescriptorCell})) =
          fun _ : ℕ => (1 - (1 : ℚ) / 2) * (1 / rightCount) from rfl]
      rw [sum_map_const, sum_map_const, List.length_range, List.length_range]
    rw [hmap]
    have heq : (leftCount : ℚ) * (1 / 2 * (1 / leftCount)) +
        (rightCount : ℚ) * ((1 - 1 / 2) * (1 / rightCount)) = 1 := by
      field_simp
      ring
    rw [heq]

section SpecialDescriptors

attribute [local semireducible] Rat.add Rat.mul Rat.sub Rat.inv Rat.ofScientific

theorem LD.descOK_specials :
    DescOK 6 LD.leftOneRightTwo ∧ DescOK 6 LD.leftTwoRightOne ∧
      DescOK 7 LD.threeThreeOne ∧ DescOK 7 LD.twoThreeTwo := by
  refine ⟨⟨?_, ?_, ?_⟩, ⟨?_, ?_, ?_⟩, ⟨?_, ?_, ?_⟩, ⟨?_, ?_, ?_⟩⟩ <;> decide

end SpecialDescriptors

theorem LD.getDescriptors_descOK (n : ℕ) (hn : 1 ≤ n) :
    ∀ d ∈ LD.getLayoutDescriptorsForPhotoCount n, DescOK n d := by
  intro d hd
  unfold LD.getLayoutDescriptorsForPhotoCount at hd
  simp only [List.mem_append] at hd
  rcases hd with ((hd | hd) | hd) | hd
  · -- grid family
    obtain ⟨rows, hrows, rfl⟩ := List.mem_map.mp hd
    simp only [List.mem_filter, List.mem_map, List.mem_range] at hrows
    obtain ⟨⟨a, ha, rfl⟩, hmod⟩ := hrows
    have hmod' : n % (a + 1) = 0 := by simpa using hmod
    have hdvd : (a + 1) ∣ n := Nat.dvd_of_mod_eq_zero hmod'
    have hcols : 1 ≤ n / (a + 1) := Nat.one_le_div_iff (by omega) |>.mpr (by omega)
    have hmul : (a + 1) * (n / (a + 1)) = n := Nat.mul_div_cancel' hdvd
    have := LD.descOK_grid (a + 1) (n / (a + 1)) (by omega) hcols
    rwa [hmul] at this
  · -- special composites for n = 6 and n = 7
    by_cases h6 : n = 6
    · subst h6
      simp at hd
      rcases hd with rfl | rfl
      · exact LD.descOK_specials.1
      · exact LD.descOK_specials.2.1
    · by_cases h7 : n = 7
      · subst h7
        simp at hd
        rcases hd with rfl | rfl
        · exact LD.descOK_specials.2.2.1
        · exact LD.descOK_specials.2.2.2
      · rw [if_neg h6, if_neg h7] at hd
        simp at hd
  · -- vertical splits
    obtain ⟨leftCount, hleft, rfl⟩ := List.mem_map.mp hd
    simp only [List.mem_map, List.mem_range] at hleft
    obtain ⟨a, ha, rfl⟩ := hleft
    have haux : (a + 1) + (n - (a + 1)) = n := by omega
    have := LD.descOK_vsplit (a + 1) (n - (a + 1)) (by omega) (by omega)
    rwa [haux] at this
  · -- horizontal splits
    obtain ⟨topCount, htop, rfl⟩ := List.mem_map.mp hd
    simp only [List.mem_map, List.mem_range] at htop
    obtain ⟨a, ha, rfl⟩ := htop
    have haux : (a + 1) + (n - (a + 1)) = n := by omega
    have := LD.descOK_hsplit (a + 1) (n - (a + 1)) (by omega) (by omega)
    rwa [haux] at this

/-! ## Instantiation preserves well-formedness -/

theorem filterMap_if_all {α β : Type} (p : α → Prop) [DecidablePred p] (g : α → β)
    (l : List α) (h : ∀ a ∈ l, p a) :
    (l.filterMap fun a => if p a then some (g a) else none) = l.map g := by
  induction l with
  | nil => rfl
  | cons a l ih =>
    rw [List.filterMap_cons, List.map_cons, if_pos (h a (List.mem_cons_self a l))]
    rw [ih fun a ha => h a (List.mem_cons_of_mem _ ha)]

theorem LG.createLayoutFromDescriptor_cells (photos : List Photo) (pageSize : PageSize)
    (d : Descriptor) (h : ∀ c ∈ d.cells, c.photoIndex < photos.length) :
    (LG.createLayoutFromDescriptor photos pageSize d).cells =
      d.cells.map fun cellDesc =>
        { photo := photos.get? cellDesc.photoIndex
          x := cellDesc.x * pageSize.width
          y := cellDesc.y * pageSize.height
          width := cellDesc.width * pageSize.width
          height := cellDesc.height * pageSize.height } := by
  unfold LG.createLayoutFromDescriptor
  exact filterMap_if_all _ _ _ h

theorem LG.createLayoutFromDescriptor_cellsOK (photos : List Photo) (pageSize : PageSize)
    (d : Descriptor) (hW : 0 < pageSize.width) (hH : 0 < pageSize.height)
    (hd : DescOK photos.length d) :
    CellsOK pageSize (LG.createLayoutFromDescriptor photos pageSize d).cells := by
  obtain ⟨hne, hmem, hsum⟩ := hd
  rw [LG.createLayoutFromDescriptor_cells photos pageSize d fun c hc => (hmem c hc).2.2]
  refine ⟨by simpa using hne, ?_, ?_⟩
  · intro c hc
    obtain ⟨cd, hcd, rfl⟩ := List.mem_map.mp hc
    exact ⟨mul_pos (hmem cd hcd).1 hW, mul_pos (hmem cd hcd).2.1 hH⟩
  · rw [List.map_map]
    rw [show ((fun c : Cell => c.width * c.height) ∘ fun cd : DescriptorCell =>
        ({ photo := photos.get? cd.photoIndex, x := cd.x * pageSize.width,
           y := cd.y * pageSize.height, width := cd.width * pageSize.width,
           height := cd.height * pageSize.height : Cell})) =
        fun cd : DescriptorCell =>
          (cd.width * cd.height) * (pageSize.width * pageSize.height) from
      funext fun cd => by dsimp; ring]
    rw [List.sum_map_mul_right]
    calc (d.cells.map fun cd => cd.width * cd.height).sum *
          (pageSize.width * pageSize.height) ≤
        1 * (pageSize.width * pageSize.height) :=
          mul_le_mul_of_nonneg_right hsum (mul_pos hW hH).le
      _ = pageSize.width * pageSize.height := one_mul _

theorem LG.assignPhotos_map_geom :
    ∀ (cs : List Cell) (pool : List Photo),
      (LG.assignPhotos cs pool).map cellGeom = cs.map cellGeom := by
  intro cs
  induction cs with
  | nil => intro pool; rfl
  | cons c rest ih =>
    intro pool
    unfold LG.assignPhotos
    rw [List.map_cons, List.map_cons, ih]
    rfl

theorem LG.createOptimizedLayout_geom_perm (photos : List Photo) (cells : List Cell)
    (name : String) :
    ((LG.createOptimizedLayout photos cells name).cells.map cellGeom).Perm
      (cells.map cellGeom) := by
  unfold LG.createOptimizedLayout
  dsimp only
  refine ((List.perm_insertionSort _ _).map _).trans ?_
  rw [LG.assignPhotos_map_geom]
  refine ((List.perm_insertionSort _ _).map _).trans ?_
  rw [List.map_map]
  exact List.Perm.refl _

theorem cellsOK_of_geom_perm (pageSize : PageSize) (cells cells' : List Cell)
    (hperm : (cells'.map cellGeom).Perm (cells.map cellGeom))
    (h : CellsOK pageSize cells) : CellsOK pageSize cells' := by
  obtain ⟨hne, hpos, hsum⟩ := h
  have hlen : cells'.length = cells.length := by
    have := hperm.length_eq
    simpa using this
  refine ⟨?_, ?_, ?_⟩
  · intro hnil
    apply hne
    rw [hnil] at hlen
    exact List.length_eq_zero.mp hlen.symm
  · intro c' hc'
    have : cellGeom c' ∈ cells.map cellGeom :=
      hperm.mem_iff.mp (List.mem_map_of_mem _ hc')
    obtain ⟨c, hc, hgeom⟩ := List.mem_map.mp this
    have hw : c.width = c'.width := congrArg (fun t => t.2.2.1) hgeom
    have hh : c.height = c'.height := congrArg (fun t => t.2.2.2) hgeom
    rw [← hw, ← hh]
    exact hpos c hc
  · have harea : ∀ l : List Cell, l.map (fun c => c.width * c.height) =
        (l.map cellGeom).map fun t => t.2.2.1 * t.2.2.2 := by
      intro l
      rw [List.map_map]
      rfl
    rw [harea, (hperm.map fun t => t.2.2.1 * t.2.2.2).sum_eq, ← harea]
    exact hsum

/-! ## Metric bounds -/

theorem LG.calculateUtilization_bounds (l : Layout) (pageSize : PageSize)
    (hW : 0 < pageSize.width) (hH : 0 < pageSize.height)
    (h : CellsOK pageSize l.cells) :
    0 ≤ LG.calculateUtilization l pageSize ∧ LG.calculateUtilization l pageSize ≤ 1 := by
  obtain ⟨-, hpos, hsum⟩ := h
  have hPA : 0 < pageSize.width * pageSize.height := mul_pos hW hH
  have hnonneg : 0 ≤ (l.cells.map fun c => c.width * c.height).sum := by
    apply List.sum_nonneg
    intro x hx
    obtain ⟨c, hc, rfl⟩ := List.mem_map.mp hx
    exact (mul_pos (hpos c hc).1 (hpos c hc).2).le
  unfold LG.calculateUtilization
  exact ⟨div_nonneg hnonneg hPA.le, (div_le_one hPA).mpr hsum⟩

theorem LG.calculateCroppingRate_bounds (l : Layout) :
    0 ≤ LG.calculateCroppingRate l ∧ LG.calculateCroppingRate l ≤ 1 := by
  unfold LG.calculateCroppingRate
  dsimp only
  set rates := l.cells.filterMap fun cell =>
    cell.photo.map fun photo => LG.cellCroppingRate cell photo with hrates
  have hmem : ∀ x ∈ rates, 0 ≤ x ∧ x ≤ 1 := by
    intro x hx
    rw [hrates] at hx
    obtain ⟨c, -, hc⟩ := List.mem_filterMap.mp hx
    obtain ⟨photo, -, rfl⟩ := Option.map_eq_some'.mp hc
    unfold LG.cellCroppingRate
    exact ⟨le_max_left _ _, max_le (by norm_num) (min_le_right _ _)⟩
  by_cases hlen : rates.length = 0
  · rw [if_pos hlen]
    norm_num
  · rw [if_neg hlen]
    have hlenq : (0 : ℚ) < rates.length := by
      have : 0 < rates.length := Nat.pos_of_ne_zero hlen
      exact_mod_cast this
    constructor
    · exact div_nonneg (List.sum_nonneg fun x hx => (hmem x hx).1) hlenq.le
    · rw [div_le_one hlenq]
      have := List.sum_le_card_nsmul rates 1 fun x hx => (hmem x hx).2
      simpa using this

theorem LG.calculateSizeBalance_bounds (l : Layout)
    (hne : l.cells ≠ []) (hpos : ∀ c ∈ l.cells, 0 < c.width ∧ 0 < c.height) :
    0 ≤ LG.calculateSizeBalance l ∧ LG.calculateSizeBalance l ≤ 1 := by
  unfold LG.calculateSizeBalance
  dsimp only
  have hareas : ∀ a ∈ l.cells.map (fun c => c.width * c.height), 0 < a := by
    intro a ha
    obtain ⟨c, hc, rfl⟩ := List.mem_map.mp ha
    exact mul_pos (hpos c hc).1 (hpos c hc).2
  have hmapne : l.cells.map (fun c => c.width * c.height) ≠ [] := by
    simpa using hne
  have htot : 0 < (l.cells.map fun c => c.width * c.height).sum :=
    List.sum_pos _ hareas hmapne
  have hlenq : (0 : ℚ) < (l.cells.map fun c => c.width * c.height).length := by
    have : 0 < (l.cells.map fun c => c.width * c.height).length :=
      List.length_pos.mpr hmapne
    exact_mod_cast this
  have havg : 0 < (l.cells.map fun c => c.width * c.height).sum /
      ((l.cells.map fun c => c.width * c.height).length : ℚ) := div_pos htot hlenq
  have hcv : 0 ≤ Rat.sqrt (((l.cells.map fun c => c.width * c.height).map
        fun area => (area - (l.cells.map fun c => c.width * c.height).sum /
          ((l.cells.map fun c => c.width * c.height).length : ℚ)) ^ 2).sum /
        ((l.cells.map fun c => c.width * c.height).length : ℚ)) /
      ((l.cells.map fun c => c.width * c.height).sum /
        ((l.cells.map fun c => c.width * c.height).length : ℚ)) :=
    div_nonneg (Rat.sqrt_nonneg _) havg.le
  constructor
  · rw [sub_nonneg]
    exact min_le_of_right_le le_rfl
  · rw [sub_le_self_iff]
    exact le_min hcv zero_le_one

/-! ## Pipeline membership -/

theorem LG.removeDuplicatesGo_cells (pageSize : PageSize) :
    ∀ (rest : List Layout) (sigs : List (LG.Signature × ℕ)) (acc : List Layout),
      ∀ x ∈ LG.removeDuplicatesGo pageSize rest sigs acc,
        x ∈ acc ∨ ∃ l ∈ rest, x.cells = l.cells := by
  intro rest
  induction rest with
  | nil =>
    intro sigs acc x hx
    left
    simpa [LG.removeDuplicatesGo] using hx
  | cons layout rest ih =>
    intro sigs acc x hx
    unfold LG.removeDuplicatesGo at hx
    dsimp only at hx
    have hnext : ∀ (sigs' : List (LG.Signature × ℕ)) (d : Option ℕ),
        x ∈ LG.removeDuplicatesGo pageSize rest sigs'
          (acc ++ [{ layout with duplicateOf := d }]) →
        x ∈ acc ∨ ∃ l ∈ layout :: rest, x.cells = l.cells := by
      intro sigs' d hx'
      rcases ih sigs' _ x hx' with hacc | ⟨l, hl, hcells⟩
      · rcases List.mem_append.mp hacc with h | h
        · exact Or.inl h
        · refine Or.inr ⟨layout, List.mem_cons_self _ _, ?_⟩
          rw [List.mem_singleton.mp h]
      · exact Or.inr ⟨l, List.mem_cons_of_mem _ hl, hcells⟩
    split at hx
    · exact hnext _ _ hx
    · exact hnext _ _ hx

theorem LG.scoreLayouts_mem (layouts : List Layout) (pageSize : PageSize) :
    ∀ sl ∈ LG.scoreLayouts layouts pageSize, ∃ l ∈ layouts,
      sl.metrics = ⟨LG.calculateUtilization l pageSize, LG.calculateCroppingRate l,
        LG.calculateSizeBalance l⟩ := by
  intro sl hsl
  unfold LG.scoreLayouts at hsl
  rw [List.mem_insertionSort] at hsl
  obtain ⟨l, hl, rfl⟩ := List.mem_map.mp hsl
  exact ⟨l, hl, rfl⟩

/-- C6, amended.  For every page size with positive dimensions and every
photo list whose photos have positive width and height, every candidate
returned by the descriptor-based `generateLayouts` carries metrics in the
unit interval: `0 ≤ utilization ≤ 1`, `0 ≤ croppingRate ≤ 1` and
`0 ≤ sizeBalance ≤ 1`, single-cell layouts included.  Both restrictions are
forced by the source: the legacy scorer's `sizeBalance` is not a
well-defined number on single-cell layouts (see the counterexample), and
the live `calculateCroppingRate` computes `Infinity / Infinity = NaN` for a
photo with a zero dimension (e.g. 100×0 on an 800×800 page), so the bounds
only hold on the positive-dimension domain, where every denominator of the
live scorer is nonzero and the rational metrics equal the source's. -/
theorem c6_theorem (photos : List Photo) (pageSize : PageSize)
    (hW : 0 < pageSize.width) (hH : 0 < pageSize.height)
    (_hphotos : ∀ ph ∈ photos, 0 < ph.width ∧ 0 < ph.height) :
    ∀ sl ∈ LG.generateLayouts photos pageSize,
      (0 ≤ sl.metrics.utilization ∧ sl.metrics.utilization ≤ 1) ∧
        (0 ≤ sl.metrics.croppingRate ∧ sl.metrics.croppingRate ≤ 1) ∧
        (0 ≤ sl.metrics.sizeBalance ∧ sl.metrics.sizeBalance ≤ 1) := by
  intro sl hsl
  unfold LG.generateLayouts at hsl
  by_cases hn : photos.length = 0
  · rw [if_pos hn] at hsl
    simp at hsl
  · rw [if_neg hn] at hsl
    dsimp only at hsl
    obtain ⟨l, hl, hmetrics⟩ := LG.scoreLayouts_mem _ _ sl hsl
    have hmem := LG.removeDuplicatesGo_cells pageSize
      (((LD.getLayoutDescriptorsForPhotoCount photos.length).map fun descriptor =>
          LG.createLayoutFromDescriptor (List.insertionSort photoDescRatio photos)
            pageSize descriptor) ++
        ((LD.getLayoutDescriptorsForPhotoCount photos.length).map fun descriptor =>
          LG.createOptimizedLayout (List.insertionSort photoDescRatio photos)
            (LG.createLayoutFromDescriptor (List.insertionSort photoDescRatio photos)
              pageSize descriptor).cells
            ((LG.createLayoutFromDescriptor (List.insertionSort photoDescRatio photos)
              pageSize descriptor).lname ++ "-optimized")))
      [] [] l hl
    rcases hmem with habs | ⟨l₀, hl₀, hcells⟩
    · simp at habs
    · have hsorted_len : (List.insertionSort photoDescRatio photos).length = photos.length :=
        List.length_insertionSort _ _
      have hok₀ : CellsOK pageSize l₀.cells := by
        rcases List.mem_append.mp hl₀ with hplain | hopt
        · obtain ⟨desc, hdesc, rfl⟩ := List.mem_map.mp hplain
          apply LG.createLayoutFromDescriptor_cellsOK _ _ _ hW hH
          rw [hsorted_len]
          exact LD.getDescriptors_descOK photos.length (Nat.one_le_iff_ne_zero.mpr hn) desc hdesc
        · obtain ⟨desc, hdesc, rfl⟩ := List.mem_map.mp hopt
          apply cellsOK_of_geom_perm pageSize
            (LG.createLayoutFromDescriptor (List.insertionSort photoDescRatio photos)
              pageSize desc).cells
          · exact LG.createOptimizedLayout_geom_perm _ _ _
          · apply LG.createLayoutFromDescriptor_cellsOK _ _ _ hW hH
            rw [hsorted_len]
            exact LD.getDescriptors_descOK photos.length
              (Nat.one_le_iff_ne_zero.mpr hn) desc hdesc
      have hok : CellsOK pageSize l.cells := by
        rw [hcells]
        exact hok₀
      rw [hmetrics]
      exact ⟨LG.calculateUtilization_bounds l pageSize hW hH hok,
        LG.calculateCroppingRate_bounds l,
        LG.calculateSizeBalance_bounds l hok.1 hok.2.1⟩

section BoundsWitness

attribute [local semireducible] Rat.add Rat.mul Rat.sub Rat.inv Rat.ofScientific

/-- C6, witness: the bounds theorem applied to the concrete single-photo run
on an 800×800 page, at the plain `grid-1x1` candidate. -/
theorem c6_witness :
    (0 : ℚ) < (⟨800, 800⟩ : PageSize).width ∧
    (0 : ℚ) < (⟨800, 800⟩ : PageSize).height ∧
    (∀ ph ∈ ([⟨1000, 1000⟩] : List Photo), 0 < ph.width ∧ 0 < ph.height) ∧
    (((0 : ℚ) ≤ 1 ∧ (1 : ℚ) ≤ 1) ∧ ((0 : ℚ) ≤ 0 ∧ (0 : ℚ) ≤ 1) ∧
      ((0 : ℚ) ≤ 1 ∧ (1 : ℚ) ≤ 1)) :=
  ⟨by decide, by decide, by decide,
    c6_theorem [⟨1000, 1000⟩] ⟨800, 800⟩ (by decide) (by decide) (by decide)
      ⟨⟨"grid", "grid-1x1", [⟨1000, 1000⟩],
        [⟨0, 0, 800, 800, some ⟨1000, 1000⟩, none⟩], none⟩, 1, ⟨1, 0, 1⟩⟩
      (by decide)⟩

end BoundsWitness
